/-
Verification of the streaming-codec pipeline in src/src/zlib.h
(`ZipLib<Processor>`): the stream state machine, the private
Write/Close/Finish/Destroy codec operations, the JS binding layer, and the
single-flight dispatch policy.

The helper header utils.h (StateTransition, Queue, Blob, the status-code
utilities) is part of the repository but not present under src/; the
definitions below that come from it are marked `Modelled from the spec:` and
follow the spec's description of those helpers.  Everything else is a direct
shallow embedding of src/src/zlib.h.
-/
import Mathlib

namespace ZipSpec

/-- Modelled from the spec: the status-code taxonomy of utils.h (missing from
src/): `Ok`, `EndOfStream`, `SequenceError` (operation illegal in current
state), `MemoryError` (buffer growth failed), and opaque codec-specific error
codes passed through from the adapter. -/
inductive Status where
  | Ok
  | EndOfStream
  | SequenceError
  | MemoryError
  | CodecError (code : Nat)
deriving DecidableEq, Repr

/-- Modelled from the spec: `Utils::IsError` of utils.h (missing from src/).
`Ok` and `EndOfStream` are the two non-error statuses; everything else is an
error. -/
def IsError : Status → Bool
  | .Ok => false
  | .EndOfStream => false
  | _ => true

/-- The stream state machine's states, from `enum State` in zlib.h. -/
inductive State where
  | Idle
  | Destroyed
  | Data
  | Eos
  | Error
deriving DecidableEq, Repr

/-- Observable events of one codec-side operation: output-buffer growth
requests (`Blob::GrowBy`, with requested byte count and success flag) and
calls into the codec adapter (`processor_.Write`, `processor_.Finish`,
`processor_.Destroy`).  For an adapter write we record the remaining input
length at the moment of the call and the status the adapter returned. -/
inductive Ev where
  | grow (n : Nat) (ok : Bool)
  | adapterWrite (remaining : Nat) (st : Status)
  | adapterFinish (st : Status)
  | adapterDestroy
deriving DecidableEq, Repr

/-- Modelled from the spec: the Growable Output Buffer (`Blob` of utils.h,
missing from src/): an append-only byte sequence; `GrowBy sz` ensures capacity
for `sz` more bytes beyond the current content. -/
structure Blob where
  data : List Nat
  cap : Nat
deriving DecidableEq, Repr

def Blob.empty : Blob := ⟨[], 0⟩

/-- Modelled from the spec: a successful `Blob::GrowBy(sz)` leaves capacity of
at least the current length plus `sz`.  Allocation failure is modelled
separately by the `alloc` oracle threaded through the operations. -/
def Blob.growBy (b : Blob) (sz : Nat) : Blob :=
  { b with cap := max b.cap (b.data.length + sz) }

/-- Bytes the codec adapter appended to the buffer. -/
def Blob.app (b : Blob) (bs : List Nat) : Blob :=
  { b with data := b.data ++ bs }

/-- One call of `processor_.Write(data, dataLength, out)`: the adapter consumes
`consumed` bytes of the remaining input (the C++ adapter updates `dataLength`
by reference), appends `output` to the blob, and returns `status`. -/
structure WriteResult where
  consumed : Nat
  output : List Nat
  status : Status

/-- The codec adapter (the `Processor` template parameter — an external
collaborator): a stateful transform with `write` and `finish`.  `write` is
given the remaining unconsumed input bytes. -/
structure Codec (σ : Type) where
  write : σ → List Nat → σ × WriteResult
  finish : σ → σ × List Nat × Status

/-- The per-instance codec-side state: `state_` and the `processor_`'s own
state. -/
structure Machine (σ : Type) where
  state : State
  codec : σ
deriving DecidableEq, Repr

/-- `ZipLib::Destroy` (zlib.h:503-508): release the adapter's resources
(`processor_.Destroy()`) only if the state is neither `Idle` nor `Destroyed`,
then set the state to `Destroyed`.  Returns the new state and the adapter
events. -/
def zipDestroy (s : State) : State × List Ev :=
  if s ≠ State.Idle ∧ s ≠ State.Destroyed then (State.Destroyed, [Ev.adapterDestroy])
  else (State.Destroyed, [])

/-- Result of the loop body of `ZipLib::Write`: the request status, the state
committed by the `StateTransition` guard, the adapter state, the allocation
counter, the final remaining input (`dataLength`), the blob, and the event
trace. -/
structure WriteOut (σ : Type) where
  status : Status
  st : State
  codec : σ
  ctr : Nat
  remaining : List Nat
  out : Blob
  trace : List Ev

/-- The `while (dataLength > 0)` loop of `ZipLib::Write` (zlib.h:471-480),
fuel-bounded (`none` = out of fuel; the C++ loop relies on the adapter
consuming input to terminate).  Each iteration grows the blob by
`dataLength + 1` (a failed growth returns `MemoryError`; the live
`StateTransition t(state_, Error)` guard then commits `Error`), calls the
adapter on the remaining input, returns any adapter error (guard commits
`Error`), returns `EndOfStream` after `t.alter(Eos)` (guard commits `Eos`),
and otherwise continues with the input the adapter left unconsumed.  When the
input is exhausted, `t.abort()` runs and the state stays `Data`. -/
def writeLoop (C : Codec σ) (alloc : Nat → Bool) :
    Nat → σ → Nat → List Nat → Blob → Option (WriteOut σ)
  | 0, s, ctr, remaining, out =>
    if remaining = [] then some ⟨Status.Ok, State.Data, s, ctr, [], out, []⟩
    else none
  | fuel + 1, s, ctr, remaining, out =>
    if remaining = [] then some ⟨Status.Ok, State.Data, s, ctr, [], out, []⟩
    else
      let n := remaining.length
      if alloc ctr = false then
        some ⟨Status.MemoryError, State.Error, s, ctr + 1, remaining, out,
          [Ev.grow (n + 1) false]⟩
      else
        let s1 := (C.write s remaining).1
        let r := (C.write s remaining).2
        let out1 := (out.growBy (n + 1)).app r.output
        let evs := [Ev.grow (n + 1) true, Ev.adapterWrite n r.status]
        if IsError r.status then
          some ⟨r.status, State.Error, s1, ctr + 1, remaining.drop r.consumed, out1, evs⟩
        else if r.status = Status.EndOfStream then
          some ⟨Status.EndOfStream, State.Eos, s1, ctr + 1, remaining.drop r.consumed,
            out1, evs⟩
        else
          match writeLoop C alloc fuel s1 (ctr + 1) (remaining.drop r.consumed) out1 with
          | none => none
          | some w => some { w with trace := evs ++ w.trace }

/-- `ZipLib::Write` (zlib.h:464-483): `SequenceError` unless the state is
`Data` (the `COND_RETURN` fires before the guard is constructed, so nothing is
touched); otherwise run the write loop.  Result: status, machine, allocation
counter, remaining input, blob, event trace. -/
def zipWrite (C : Codec σ) (alloc : Nat → Bool) (fuel : Nat) (m : Machine σ)
    (ctr : Nat) (input : List Nat) (out : Blob) :
    Option (Status × Machine σ × Nat × List Nat × Blob × List Ev) :=
  if m.state ≠ State.Data then some (Status.SequenceError, m, ctr, input, out, [])
  else
    match writeLoop C alloc fuel m.codec ctr input out with
    | none => none
    | some w => some (w.status, ⟨w.st, w.codec⟩, w.ctr, w.remaining, w.out, w.trace)

/-- Result of `ZipLib::Finish`'s loop: status, adapter state, allocation
counter, blob, trace.  `Finish` never touches `state_`. -/
structure FinishOut (σ : Type) where
  status : Status
  codec : σ
  ctr : Nat
  out : Blob
  trace : List Ev

/-- `ZipLib::Finish` (zlib.h:511-522), fuel-bounded: a do-while loop that
grows the blob by the fixed `Chunk = 128`, calls `processor_.Finish`, returns
any error immediately (`MemoryError` for a failed growth), and repeats until
the adapter signals `EndOfStream`, whereupon it returns `Ok`. -/
def finishLoop (C : Codec σ) (alloc : Nat → Bool) :
    Nat → σ → Nat → Blob → Option (FinishOut σ)
  | 0, _, _, _ => none
  | fuel + 1, s, ctr, out =>
    if alloc ctr = false then
      some ⟨Status.MemoryError, s, ctr + 1, out, [Ev.grow 128 false]⟩
    else
      let s1 := (C.finish s).1
      let bs := (C.finish s).2.1
      let st := (C.finish s).2.2
      let out1 := (out.growBy 128).app bs
      let evs := [Ev.grow 128 true, Ev.adapterFinish st]
      if IsError st then some ⟨st, s1, ctr + 1, out1, evs⟩
      else if st = Status.EndOfStream then some ⟨Status.Ok, s1, ctr + 1, out1, evs⟩
      else
        match finishLoop C alloc fuel s1 (ctr + 1) out1 with
        | none => none
        | some f => some { f with trace := evs ++ f.trace }

/-- `ZipLib::Close` (zlib.h:486-500): succeed with `Ok` touching nothing if
the state is `Idle` or `Destroyed`.  Otherwise `ret` starts as `Ok`, is set to
`Finish`'s result only when the state is `Data`, and then — unconditionally —
the guard is aborted, `Destroy()` runs (it sees the original state, which is
not `Idle`/`Destroyed`, so it releases the adapter), and `ret` is returned. -/
def zipClose (C : Codec σ) (alloc : Nat → Bool) (fuel : Nat) (m : Machine σ)
    (ctr : Nat) (out : Blob) :
    Option (Status × Machine σ × Nat × Blob × List Ev) :=
  if m.state = State.Idle ∨ m.state = State.Destroyed then
    some (Status.Ok, m, ctr, out, [])
  else if m.state = State.Data then
    match finishLoop C alloc fuel m.codec ctr out with
    | none => none
    | some f =>
      some (f.status, ⟨(zipDestroy m.state).1, f.codec⟩, f.ctr, f.out,
        f.trace ++ (zipDestroy m.state).2)
  else
    some (Status.Ok, ⟨(zipDestroy m.state).1, m.codec⟩, ctr, out, (zipDestroy m.state).2)

/-! ## The request layer: `Request`, `DoProcess`, `DoCallback` -/

/-- `Request::Kind` (zlib.h:79-83). -/
inductive RKind where
  | RWrite
  | RClose
  | RDestroy
deriving DecidableEq, Repr

/-- A submitted request: kind, input chunk (only for `RWrite`), and the
optional completion callback (`Persistent<Function> callback_`; empty when the
caller omitted it — a `Request::Destroy` never carries one).  Callbacks are
identified by a number. -/
structure RequestDesc where
  kind : RKind
  input : List Nat
  callback : Option Nat
deriving DecidableEq, Repr

/-- `ZipLib::DoCallback` (zlib.h:409-425): invoke the callback with the status
and the output bytes only when a callback was supplied (`!cb.IsEmpty()`).
Returns the list of invocations this produces. -/
def DoCallback (cb : Option Nat) (st : Status) (outBytes : List Nat) :
    List (Nat × Status × List Nat) :=
  match cb with
  | none => []
  | some f => [(f, st, outBytes)]

/-- One iteration of the `switch (request->kind())` in `ZipLib::DoProcess`
(zlib.h:342-357): `RWrite` runs `Write` on the request's input with a fresh
output blob, `RClose` runs `Close`, `RDestroy` runs `Destroy` and sets status
`Ok`.  Returns the request status, the machine, the allocation counter, the
delivered output bytes, and the event trace. -/
def processRequest (C : Codec σ) (alloc : Nat → Bool) (fuel : Nat)
    (m : Machine σ) (ctr : Nat) (r : RequestDesc) :
    Option (Status × Machine σ × Nat × List Nat × List Ev) :=
  match r.kind with
  | RKind.RWrite =>
    match zipWrite C alloc fuel m ctr r.input Blob.empty with
    | none => none
    | some (st, m1, c1, _, out, tr) => some (st, m1, c1, out.data, tr)
  | RKind.RClose =>
    match zipClose C alloc fuel m ctr Blob.empty with
    | none => none
    | some (st, m1, c1, out, tr) => some (st, m1, c1, out.data, tr)
  | RKind.RDestroy =>
    some (Status.Ok, ⟨(zipDestroy m.state).1, m.codec⟩, ctr, [], (zipDestroy m.state).2)

/-- The worker's drain of one instance's queue followed by in-order callback
delivery: process the requests front to back (single-flight dispatch runs them
sequentially in FIFO order), collecting each request's `(status, output)` and
the callback invocations `DoCallback` makes for it. -/
def runRequests (C : Codec σ) (alloc : Nat → Bool) (fuel : Nat) :
    Machine σ → Nat → List RequestDesc →
    Option (List (Status × List Nat) × List (Nat × Status × List Nat) × Machine σ × Nat)
  | m, ctr, [] => some ([], [], m, ctr)
  | m, ctr, r :: rs =>
    match processRequest C alloc fuel m ctr r with
    | none => none
    | some (st, m1, c1, outBytes, _) =>
      match runRequests C alloc fuel m1 c1 rs with
      | none => none
      | some (results, calls, mf, cf) =>
        some ((st, outBytes) :: results, DoCallback r.callback st outBytes ++ calls, mf, cf)

/-! ## The JS binding layer -/

/-- The shapes of JavaScript arguments the bindings inspect: `undefined`, a
`Buffer`, a `Function`, or anything else. -/
inductive JsValue where
  | undefined
  | buffer (bytes : List Nat)
  | function (id : Nat)
  | other
deriving DecidableEq, Repr

def JsValue.isBuffer : JsValue → Bool
  | .buffer _ => true
  | _ => false

def JsValue.isFunction : JsValue → Bool
  | .function _ => true
  | _ => false

def JsValue.isDefined : JsValue → Bool
  | .undefined => false
  | _ => true

/-- The synchronous failures of the static bindings: the two `TypeError`s
("Input must be of type Buffer", "Callback must be a function") and the
gentle out-of-memory error. -/
inductive BindError where
  | typeErrorInput
  | typeErrorCallback
  | gentleOom
deriving DecidableEq, Repr

/-- The static `ZipLib::Write` binding (zlib.h:242-262): throw a `TypeError`
unless `args[0]` is a `Buffer`; if `args[1]` is supplied and not `undefined`
it must be a function, else a `TypeError`; only then is a `Request` created
and pushed. -/
def jsWriteBind (a0 a1 : JsValue) : Except BindError RequestDesc :=
  match a0 with
  | JsValue.buffer bs =>
    match a1 with
    | JsValue.undefined => Except.ok ⟨RKind.RWrite, bs, none⟩
    | JsValue.function f => Except.ok ⟨RKind.RWrite, bs, some f⟩
    | _ => Except.error BindError.typeErrorCallback
  | _ => Except.error BindError.typeErrorInput

/-- The static `ZipLib::Close` binding (zlib.h:265-279): if `args[0]` is
supplied and not `undefined` it must be a function, else a `TypeError`; only
then is a `Request` created and pushed. -/
def jsCloseBind (a0 : JsValue) : Except BindError RequestDesc :=
  match a0 with
  | JsValue.undefined => Except.ok ⟨RKind.RClose, [], none⟩
  | JsValue.function f => Except.ok ⟨RKind.RClose, [], some f⟩
  | _ => Except.error BindError.typeErrorCallback

/-- The static `ZipLib::Destroy` binding (zlib.h:282-288): always creates a
callback-less `Request::Destroy`. -/
def jsDestroyBind : RequestDesc := ⟨RKind.RDestroy, [], none⟩

/-! ## The single-flight dispatch policy -/

/-- The mutex-protected dispatch bookkeeping of one instance: the submission
queue length (`requestsQueue_`), the `processorActive_` flag, and the number
of worker dispatch tasks scheduled or running for this instance.  All accesses
to the queue and the flag happen under `requestsMutex_`, so each critical
section is one atomic step of the transition relation below. -/
structure DispatchState where
  queueLen : Nat
  active : Bool
  workers : Nat
deriving DecidableEq, Repr

/-- The atomic steps of `ZipLib::PushRequest` (zlib.h:294-325) and the
dispatch loop `ZipLib::DoProcess` (zlib.h:335-384).
* `pushStart`: a submission finds `processorActive_` false: it pushes, sets
  the flag, and (being the one that saw the false→true edge) schedules one
  dispatch task.
* `pushAppend`: a submission finds the flag already true: it only appends to
  the queue and schedules nothing.
* `popWork`: a running worker pops one request under the mutex and executes
  it (`ReentrantPop` + the switch).
* `exitEmpty`: the worker's close-the-race re-check: under the mutex it reads
  the queue length, stores `length != 0` into `processorActive_`, and exits
  only when that is false — i.e. the flag is cleared only when the queue is
  observed empty.  When the queue is non-empty the flag stays true and the
  same worker re-enters the drain loop (no state change). -/
inductive DStep : DispatchState → DispatchState → Prop where
  | pushStart (q w : Nat) : DStep ⟨q, false, w⟩ ⟨q + 1, true, w + 1⟩
  | pushAppend (q w : Nat) : DStep ⟨q, true, w⟩ ⟨q + 1, true, w⟩
  | popWork (q : Nat) (b : Bool) (w : Nat) : DStep ⟨q + 1, b, w + 1⟩ ⟨q, b, w + 1⟩
  | exitEmpty (b : Bool) (w : Nat) : DStep ⟨0, b, w + 1⟩ ⟨0, false, w⟩

/-- Dispatch states reachable from a freshly constructed instance
(`processorActive_(false)`, empty queue, no worker). -/
inductive DReach : DispatchState → Prop where
  | init : DReach ⟨0, false, 0⟩
  | step {s s' : DispatchState} : DReach s → DStep s s' → DReach s'

/-- Checks that every adapter-write call in a trace is immediately preceded by
a successful growth request of exactly the remaining input length plus one —
the `out.GrowBy(dataLength + 1)` that `ZipLib::Write` issues before each
`processor_.Write` call. -/
def wellGrown : List Ev → Bool
  | Ev.grow k true :: Ev.adapterWrite n _ :: rest => (k == n + 1) && wellGrown rest
  | Ev.adapterWrite _ _ :: _ => false
  | _ :: rest => wellGrown rest
  | [] => true

/-! ## Scratch sanity checks (identity adapter) -/

/-- The pass-through (identity) adapter: `write` consumes the whole remaining
input and echoes it to the output with status `Ok`; `finish` produces nothing
and signals `EndOfStream` at once. -/
def idCodec : Codec Unit where
  write := fun _ input => ((), ⟨input.length, input, Status.Ok⟩)
  finish := fun _ => ((), [], Status.EndOfStream)

/-- An allocation oracle under which every growth call succeeds. -/
def allocAll : Nat → Bool := fun _ => true

example :
    zipWrite idCodec allocAll 3 ⟨State.Data, ()⟩ 0 [65, 66] Blob.empty =
      some (Status.Ok, ⟨State.Data, ()⟩, 1, [], ⟨[65, 66], 3⟩,
        [Ev.grow 3 true, Ev.adapterWrite 2 Status.Ok]) := by rfl

example :
    zipClose idCodec allocAll 3 ⟨State.Data, ()⟩ 0 Blob.empty =
      some (Status.Ok, ⟨State.Destroyed, ()⟩, 1, ⟨[], 128⟩,
        [Ev.grow 128 true, Ev.adapterFinish Status.EndOfStream, Ev.adapterDestroy]) := by
  rfl

/-! ## Theorems -/

theorem zipDestroy_fst (s : State) : (zipDestroy s).1 = State.Destroyed := by
  unfold zipDestroy
  split <;> rfl

theorem writeLoop_nil (C : Codec σ) (alloc : Nat → Bool) (fuel : Nat) (s : σ)
    (ctr : Nat) (out : Blob) :
    writeLoop C alloc fuel s ctr [] out =
      some ⟨Status.Ok, State.Data, s, ctr, [], out, []⟩ := by
  cases fuel <;> simp [writeLoop]

theorem wellGrown_nil : wellGrown [] = true := rfl

theorem wellGrown_grow_false (k : Nat) (rest : List Ev) :
    wellGrown (Ev.grow k false :: rest) = wellGrown rest := rfl

theorem wellGrown_pair (k n : Nat) (st : Status) (rest : List Ev) :
    wellGrown (Ev.grow k true :: Ev.adapterWrite n st :: rest) =
      ((k == n + 1) && wellGrown rest) := rfl

/-- Exhaustive outcome analysis of the `ZipLib::Write` loop: every adapter
call is immediately preceded by a successful growth of the remaining length
plus one; the loop ends `Ok` in `Data` with the input fully consumed, or
`EndOfStream` in `Eos`, or with an error status in `Error`; and a failed
growth in the trace means the result was `MemoryError`. -/
theorem writeLoop_spec (C : Codec σ) (alloc : Nat → Bool) (fuel : Nat) :
    ∀ (s : σ) (ctr : Nat) (remaining : List Nat) (out : Blob) (w : WriteOut σ),
      writeLoop C alloc fuel s ctr remaining out = some w →
      wellGrown w.trace = true ∧
      ((w.status = Status.Ok ∧ w.st = State.Data ∧ w.remaining = []) ∨
        (w.status = Status.EndOfStream ∧ w.st = State.Eos) ∨
        (IsError w.status = true ∧ w.st = State.Error)) ∧
      (∀ n : Nat, Ev.grow n false ∈ w.trace → w.status = Status.MemoryError) := by
  induction fuel with
  | zero =>
    intro s ctr remaining out w h
    unfold writeLoop at h
    split at h
    · injection h with h
      subst h
      exact ⟨rfl, Or.inl ⟨rfl, rfl, rfl⟩, by intro n hn; simp at hn⟩
    · cases h
  | succ fuel ih =>
    intro s ctr remaining out w h
    unfold writeLoop at h
    split at h
    · injection h with h
      subst h
      exact ⟨rfl, Or.inl ⟨rfl, rfl, rfl⟩, by intro n hn; simp at hn⟩
    · simp only [] at h
      split at h
      · -- growth failure: MemoryError, Error
        injection h with h
        subst h
        refine ⟨wellGrown_grow_false _ _, Or.inr (Or.inr ⟨rfl, rfl⟩), ?_⟩
        intro n hn
        rfl
      · split at h
        · -- adapter error
          rename_i herr
          injection h with h
          subst h
          refine ⟨?_, Or.inr (Or.inr ⟨herr, rfl⟩), ?_⟩
          · rw [wellGrown_pair]
            simp [wellGrown_nil]
          · intro n hn
            simp at hn
        · split at h
          · -- adapter signalled end-of-stream
            injection h with h
            subst h
            refine ⟨?_, Or.inr (Or.inl ⟨rfl, rfl⟩), ?_⟩
            · rw [wellGrown_pair]
              simp [wellGrown_nil]
            · intro n hn
              simp at hn
          · -- input partially consumed: continue the loop
            split at h
            · cases h
            · next w' hrec =>
              injection h with h
              subst h
              obtain ⟨g1, g2, g3⟩ := ih _ _ _ _ _ hrec
              refine ⟨?_, g2, ?_⟩
              · simpa [wellGrown_pair] using g1
              · intro n hn
                simp only [List.cons_append, List.nil_append, List.mem_cons] at hn
                rcases hn with hn | hn | hn
                · cases hn
                · cases hn
                · exact g3 n hn

/-- C9: in state `Data`, a `Write` of an empty chunk returns `Ok` without any
adapter call or buffer growth (empty event trace), leaves the machine and the
blob unchanged, and consumes nothing. -/
theorem c9_write_empty_chunk (C : Codec σ) (alloc : Nat → Bool) (fuel : Nat)
    (m : Machine σ) (ctr : Nat) (out : Blob) (h : m.state = State.Data) :
    zipWrite C alloc fuel m ctr [] out = some (Status.Ok, m, ctr, [], out, []) := by
  obtain ⟨st, c⟩ := m
  simp only [Machine.state] at h
  subst h
  simp [zipWrite, writeLoop_nil]

theorem c9_write_empty_chunk_witness :
    zipWrite idCodec allocAll 0 ⟨State.Data, ()⟩ 5 [] Blob.empty =
      some (Status.Ok, ⟨State.Data, ()⟩, 5, [], Blob.empty, []) :=
  c9_write_empty_chunk idCodec allocAll 0 ⟨State.Data, ()⟩ 5 Blob.empty rfl

/-- C3: a `Write` request processed while the state is not `Data` (after
`Close`, `Destroy`, or an error) gets status `SequenceError`, leaves the
machine unchanged, performs no adapter call (empty trace), and the callback —
when one was supplied — is invoked with no output bytes. -/
theorem c3_write_wrong_state (C : Codec σ) (alloc : Nat → Bool) (fuel : Nat)
    (m : Machine σ) (ctr : Nat) (bs : List Nat) (cb : Option Nat)
    (h : m.state ≠ State.Data) :
    processRequest C alloc fuel m ctr ⟨RKind.RWrite, bs, cb⟩ =
      some (Status.SequenceError, m, ctr, [], []) ∧
    (∀ f : Nat, cb = some f →
      DoCallback cb Status.SequenceError [] = [(f, Status.SequenceError, [])]) := by
  constructor
  · simp [processRequest, zipWrite, h, Blob.empty]
  · rintro f rfl
    rfl

theorem c3_write_wrong_state_witness :
    processRequest idCodec allocAll 3 ⟨State.Destroyed, ()⟩ 0 ⟨RKind.RWrite, [65], some 7⟩ =
      some (Status.SequenceError, ⟨State.Destroyed, ()⟩, 0, [], []) ∧
    DoCallback (some 7) Status.SequenceError [] = [(7, Status.SequenceError, [])] := by
  have h := c3_write_wrong_state idCodec allocAll 3 ⟨State.Destroyed, ()⟩ 0 [65] (some 7)
    (by decide)
  exact ⟨h.1, h.2 7 rfl⟩

/-- C5: `Destroy` is idempotent.  The first `Destroy` releases the adapter
(one `adapterDestroy` event) exactly when the state is neither `Idle` nor
`Destroyed` and always ends in `Destroyed`; a repeated `Destroy` releases
nothing and ends in the same `Destroyed` state, so destroying twice equals
destroying once; and a `Close` issued after a `Destroy` succeeds with `Ok`
touching nothing. -/
theorem c5_destroy_idempotent (s : State) :
    ((s = State.Idle ∨ s = State.Destroyed) → zipDestroy s = (State.Destroyed, [])) ∧
    (¬(s = State.Idle ∨ s = State.Destroyed) →
      zipDestroy s = (State.Destroyed, [Ev.adapterDestroy])) ∧
    zipDestroy (zipDestroy s).1 = (State.Destroyed, []) ∧
    (zipDestroy (zipDestroy s).1).1 = (zipDestroy s).1 ∧
    (∀ {σ : Type} (C : Codec σ) (alloc : Nat → Bool) (fuel ctr : Nat) (out : Blob) (c : σ),
      zipClose C alloc fuel ⟨(zipDestroy s).1, c⟩ ctr out =
        some (Status.Ok, ⟨(zipDestroy s).1, c⟩, ctr, out, [])) := by
  cases s <;>
    refine ⟨by decide, by decide, by decide, by decide, ?_⟩ <;>
    · intro σ C alloc fuel ctr out c
      simp [zipDestroy, zipClose]

theorem c5_destroy_idempotent_witness :
    zipDestroy State.Idle = (State.Destroyed, []) ∧
    zipDestroy State.Data = (State.Destroyed, [Ev.adapterDestroy]) ∧
    zipDestroy (zipDestroy State.Data).1 = (State.Destroyed, []) ∧
    zipClose idCodec allocAll 1 ⟨(zipDestroy State.Data).1, ()⟩ 0 Blob.empty =
      some (Status.Ok, ⟨(zipDestroy State.Data).1, ()⟩, 0, Blob.empty, []) :=
  ⟨(c5_destroy_idempotent State.Idle).1 (Or.inl rfl),
   (c5_destroy_idempotent State.Data).2.1 (by decide),
   (c5_destroy_idempotent State.Data).2.2.1,
   (c5_destroy_idempotent State.Data).2.2.2.2 idCodec allocAll 1 0 Blob.empty ()⟩

/-- C7: malformed arguments fail synchronously in the binding, before any
request exists: a `write` whose first argument is not a `Buffer` throws the
input `TypeError`; a `write` or `close` whose callback argument is defined but
not a function throws the callback `TypeError`.  In each case the result is an
`Except.error`, so no request is created and nothing reaches the queue or the
state machine. -/
theorem c7_malformed_args :
    (∀ a0 a1 : JsValue, a0.isBuffer = false →
      jsWriteBind a0 a1 = Except.error BindError.typeErrorInput) ∧
    (∀ (bs : List Nat) (a1 : JsValue), a1.isDefined = true → a1.isFunction = false →
      jsWriteBind (JsValue.buffer bs) a1 = Except.error BindError.typeErrorCallback) ∧
    (∀ a0 : JsValue, a0.isDefined = true → a0.isFunction = false →
      jsCloseBind a0 = Except.error BindError.typeErrorCallback) := by
  refine ⟨?_, ?_, ?_⟩
  · intro a0 a1 h
    cases a0 <;> simp_all [JsValue.isBuffer, jsWriteBind]
  · intro bs a1 h1 h2
    cases a1 <;> simp_all [JsValue.isDefined, JsValue.isFunction, jsWriteBind]
  · intro a0 h1 h2
    cases a0 <;> simp_all [JsValue.isDefined, JsValue.isFunction, jsCloseBind]

theorem c7_malformed_args_witness :
    jsWriteBind JsValue.other JsValue.undefined = Except.error BindError.typeErrorInput ∧
    jsWriteBind (JsValue.buffer [1]) JsValue.other =
      Except.error BindError.typeErrorCallback ∧
    jsCloseBind JsValue.other = Except.error BindError.typeErrorCallback :=
  ⟨c7_malformed_args.1 JsValue.other JsValue.undefined rfl,
   c7_malformed_args.2.1 [1] JsValue.other rfl rfl,
   c7_malformed_args.2.2 JsValue.other rfl rfl⟩

/-- C10: the completion callback is optional.  A `write` or `close` submitted
with an `undefined` callback is accepted with no callback attached;
`DoCallback` with no callback invokes nothing; the `destroy` binding never
carries a callback; and a processed destroy request always completes with
status `Ok`, the state ending `Destroyed`. -/
theorem c10_optional_callback :
    (∀ bs : List Nat,
      jsWriteBind (JsValue.buffer bs) JsValue.undefined =
        Except.ok ⟨RKind.RWrite, bs, none⟩) ∧
    jsCloseBind JsValue.undefined = Except.ok ⟨RKind.RClose, [], none⟩ ∧
    (∀ (st : Status) (outBytes : List Nat), DoCallback none st outBytes = []) ∧
    jsDestroyBind.callback = none ∧
    (∀ {σ : Type} (C : Codec σ) (alloc : Nat → Bool) (fuel : Nat) (m : Machine σ)
      (ctr : Nat),
      processRequest C alloc fuel m ctr jsDestroyBind =
        some (Status.Ok, ⟨State.Destroyed, m.codec⟩, ctr, [], (zipDestroy m.state).2)) := by
  refine ⟨fun bs => rfl, rfl, fun st outBytes => rfl, rfl, ?_⟩
  intro σ C alloc fuel m ctr
  simp [processRequest, jsDestroyBind, zipDestroy_fst]

/-- C8: the single-flight property.  In every dispatch state reachable from a
fresh instance, at most one worker dispatch task is scheduled or running, and
the `processorActive_` flag is set exactly when such a task exists — so a
submission that finds the flag set only appends (`pushAppend` schedules
nothing), and the flag is cleared only by the `exitEmpty` re-check, which
fires only when the queue is observed empty under the mutex. -/
theorem c8_single_flight (s : DispatchState) (h : DReach s) :
    s.workers ≤ 1 ∧ (s.active = true ↔ s.workers = 1) := by
  induction h with
  | init => simp
  | step _ hs ih =>
    cases hs with
    | pushStart q w =>
      obtain ⟨h1, h2⟩ := ih
      simp only [DispatchState.workers, DispatchState.active] at h1 h2 ⊢
      have hw : w ≠ 1 := fun hw1 => by simp [hw1] at h2
      refine ⟨by omega, fun _ => by omega, fun _ => by trivial⟩
    | pushAppend q w =>
      obtain ⟨h1, h2⟩ := ih
      simp only [DispatchState.workers, DispatchState.active] at h1 h2 ⊢
      exact ⟨h1, h2⟩
    | popWork q b w =>
      obtain ⟨h1, h2⟩ := ih
      simp only [DispatchState.workers, DispatchState.active] at h1 h2 ⊢
      exact ⟨h1, h2⟩
    | exitEmpty b w =>
      obtain ⟨h1, h2⟩ := ih
      simp only [DispatchState.workers, DispatchState.active] at h1 h2 ⊢
      have hw : w = 0 := by omega
      subst hw
      exact ⟨by omega, by simp⟩

theorem c8_single_flight_witness :
    (⟨1, true, 1⟩ : DispatchState).workers ≤ 1 ∧
    ((⟨1, true, 1⟩ : DispatchState).active = true ↔
      (⟨1, true, 1⟩ : DispatchState).workers = 1) :=
  c8_single_flight ⟨1, true, 1⟩ (DReach.step DReach.init (DStep.pushStart 0 0))

/-- C1 (amended): `Close` on `Idle`/`Destroyed` returns `Ok` touching nothing;
on `Data` it runs `Finish` and then unconditionally destroys, returning
`Finish`'s status; on `Eos`/`Error` it destroys and returns `Ok` — the
pre-existing error status is not preserved. -/
theorem c1_close_behaviour (C : Codec σ) (alloc : Nat → Bool) (fuel : Nat)
    (m : Machine σ) (ctr : Nat) (out : Blob) :
    ((m.state = State.Idle ∨ m.state = State.Destroyed) →
      zipClose C alloc fuel m ctr out = some (Status.Ok, m, ctr, out, [])) ∧
    (m.state = State.Data → ∀ f : FinishOut σ,
      finishLoop C alloc fuel m.codec ctr out = some f →
      zipClose C alloc fuel m ctr out =
        some (f.status, ⟨State.Destroyed, f.codec⟩, f.ctr, f.out,
          f.trace ++ [Ev.adapterDestroy])) ∧
    ((m.state = State.Eos ∨ m.state = State.Error) →
      zipClose C alloc fuel m ctr out =
        some (Status.Ok, ⟨State.Destroyed, m.codec⟩, ctr, out, [Ev.adapterDestroy])) := by
  obtain ⟨st, c⟩ := m
  refine ⟨fun h => ?_, fun h f hf => ?_, fun h => ?_⟩
  · simp only [Machine.state] at h
    simp [zipClose, h]
  · simp only [Machine.state] at h
    subst h
    simp only [Machine.codec] at hf
    simp [zipClose, zipDestroy, hf]
  · simp only [Machine.state] at h
    rcases h with h | h <;> subst h <;> simp [zipClose, zipDestroy]

theorem c1_close_behaviour_witness :
    zipClose idCodec allocAll 2 ⟨State.Idle, ()⟩ 0 Blob.empty =
      some (Status.Ok, ⟨State.Idle, ()⟩, 0, Blob.empty, []) ∧
    zipClose idCodec allocAll 2 ⟨State.Data, ()⟩ 0 Blob.empty =
      some (Status.Ok, ⟨State.Destroyed, ()⟩, 1, ⟨[], 128⟩,
        [Ev.grow 128 true, Ev.adapterFinish Status.EndOfStream] ++ [Ev.adapterDestroy]) ∧
    zipClose idCodec allocAll 2 ⟨State.Error, ()⟩ 4 Blob.empty =
      some (Status.Ok, ⟨State.Destroyed, ()⟩, 4, Blob.empty, [Ev.adapterDestroy]) :=
  ⟨(c1_close_behaviour idCodec allocAll 2 ⟨State.Idle, ()⟩ 0 Blob.empty).1 (Or.inl rfl),
   (c1_close_behaviour idCodec allocAll 2 ⟨State.Data, ()⟩ 0 Blob.empty).2.1 rfl
     ⟨Status.Ok, (), 1, ⟨[], 128⟩, [Ev.grow 128 true, Ev.adapterFinish Status.EndOfStream]⟩
     rfl,
   (c1_close_behaviour idCodec allocAll 2 ⟨State.Error, ()⟩ 4 Blob.empty).2.2
     (Or.inr rfl)⟩

/-- An adapter that always fails with the codec-specific error code 3,
consuming nothing and producing nothing. -/
def errCodec : Codec Unit where
  write := fun _ _ => ((), ⟨0, [], Status.CodecError 3⟩)
  finish := fun _ => ((), [], Status.CodecError 3)

/-- C1 (counterexample): a write that fails with the adapter error code 3
leaves the instance in `Error`, and `Close` on that instance returns `Ok` —
not the pre-existing status of the earlier outcome, refuting the claim's
`Eos`/`Error` clause ("not unconditionally Ok"). -/
theorem c1_close_error_returns_ok :
    zipWrite errCodec allocAll 3 ⟨State.Data, ()⟩ 0 [65] Blob.empty =
      some (Status.CodecError 3, ⟨State.Error, ()⟩, 1, [65], ⟨[], 2⟩,
        [Ev.grow 2 true, Ev.adapterWrite 1 (Status.CodecError 3)]) ∧
    zipClose errCodec allocAll 3 ⟨State.Error, ()⟩ 1 Blob.empty =
      some (Status.Ok, ⟨State.Destroyed, ()⟩, 1, Blob.empty, [Ev.adapterDestroy]) ∧
    Status.Ok ≠ Status.CodecError 3 :=
  ⟨rfl, rfl, by decide⟩

/-- C6: on the pass-through adapter, submitting `Write "AB"`, `Write "CD"`,
`Close` to a freshly initialized instance yields exactly three callback
invocations, in submission order, with outputs `"AB"` (65 66), `"CD"` (67 68)
and `""`, each with `Ok` status; the instance ends `Destroyed` and a further
`Write` fails with `SequenceError`. -/
theorem c6_identity_scenario :
    runRequests idCodec allocAll 3 ⟨State.Data, ()⟩ 0
      [⟨RKind.RWrite, [65, 66], some 1⟩, ⟨RKind.RWrite, [67, 68], some 2⟩,
        ⟨RKind.RClose, [], some 3⟩] =
      some ([(Status.Ok, [65, 66]), (Status.Ok, [67, 68]), (Status.Ok, [])],
        [(1, Status.Ok, [65, 66]), (2, Status.Ok, [67, 68]), (3, Status.Ok, [])],
        ⟨State.Destroyed, ()⟩, 3) ∧
    zipWrite idCodec allocAll 3 ⟨State.Destroyed, ()⟩ 3 [69] Blob.empty =
      some (Status.SequenceError, ⟨State.Destroyed, ()⟩, 3, [69], Blob.empty, []) :=
  ⟨rfl, rfl⟩

/-- C2: a `Write` in state `Data` on a non-empty chunk grows the buffer by the
remaining input length plus one (slack) immediately before every adapter call
(`wellGrown`), and loops until either the input is fully consumed (status
`Ok`, state stays `Data`) or the adapter signals end-of-stream (status
`EndOfStream`, state `Eos`); any adapter error becomes the request status with
state `Error`, and a failed buffer growth yields `MemoryError` (an error
status, hence state `Error` by the same disjunct). -/
theorem c2_write_loop (C : Codec σ) (alloc : Nat → Bool) (fuel : Nat)
    (m : Machine σ) (ctr : Nat) (input : List Nat) (out : Blob) (st : Status)
    (m' : Machine σ) (ctr' : Nat) (rem : List Nat) (out' : Blob) (tr : List Ev)
    (hst : m.state = State.Data) (hne : input ≠ [])
    (h : zipWrite C alloc fuel m ctr input out = some (st, m', ctr', rem, out', tr)) :
    wellGrown tr = true ∧
    ((st = Status.Ok ∧ m'.state = State.Data ∧ rem = []) ∨
      (st = Status.EndOfStream ∧ m'.state = State.Eos) ∨
      (IsError st = true ∧ m'.state = State.Error)) ∧
    (∀ n : Nat, Ev.grow n false ∈ tr → st = Status.MemoryError) := by
  unfold zipWrite at h
  rw [if_neg (by simp [hst])] at h
  cases hw : writeLoop C alloc fuel m.codec ctr input out with
  | none =>
    rw [hw] at h
    cases h
  | some w =>
    rw [hw] at h
    injection h with h
    simp only [Prod.mk.injEq] at h
    obtain ⟨e1, e2, e3, e4, e5, e6⟩ := h
    subst e1
    subst e2
    subst e3
    subst e4
    subst e5
    subst e6
    obtain ⟨g1, g2, g3⟩ := writeLoop_spec C alloc fuel m.codec ctr input out w hw
    exact ⟨g1, by simpa using g2, g3⟩

theorem c2_write_loop_witness :
    wellGrown [Ev.grow 3 true, Ev.adapterWrite 2 Status.Ok] = true ∧
    ((Status.Ok = Status.Ok ∧
        (⟨State.Data, ()⟩ : Machine Unit).state = State.Data ∧ ([] : List Nat) = []) ∨
      (Status.Ok = Status.EndOfStream ∧
        (⟨State.Data, ()⟩ : Machine Unit).state = State.Eos) ∨
      (IsError Status.Ok = true ∧
        (⟨State.Data, ()⟩ : Machine Unit).state = State.Error)) ∧
    (∀ n : Nat,
      Ev.grow n false ∈ [Ev.grow 3 true, Ev.adapterWrite 2 Status.Ok] →
        Status.Ok = Status.MemoryError) :=
  c2_write_loop idCodec allocAll 3 ⟨State.Data, ()⟩ 0 [65, 66] Blob.empty Status.Ok
    ⟨State.Data, ()⟩ 1 [] ⟨[65, 66], 3⟩ [Ev.grow 3 true, Ev.adapterWrite 2 Status.Ok]
    rfl (by decide) rfl

/-- Exhaustive outcome analysis of the `ZipLib::Finish` loop: the trace is
non-empty, every growth request is exactly the fixed 128-byte chunk, the
result is `Ok` or an error, an `Ok` result means the last adapter call
signalled `EndOfStream`, and an error result means the loop stopped right at
the failing event (the erroring adapter call, or — for `MemoryError` — the
failed growth) with no further adapter calls. -/
theorem finishLoop_spec (C : Codec σ) (alloc : Nat → Bool) (fuel : Nat) :
    ∀ (s : σ) (ctr : Nat) (out : Blob) (f : FinishOut σ),
      finishLoop C alloc fuel s ctr out = some f →
      f.trace ≠ [] ∧
      (∀ (n : Nat) (b : Bool), Ev.grow n b ∈ f.trace → n = 128) ∧
      (IsError f.status = true ∨ f.status = Status.Ok) ∧
      (f.status = Status.Ok →
        f.trace.getLast? = some (Ev.adapterFinish Status.EndOfStream)) ∧
      (IsError f.status = true →
        f.trace.getLast? = some (Ev.adapterFinish f.status) ∨
        (f.status = Status.MemoryError ∧ f.trace.getLast? = some (Ev.grow 128 false))) := by
  induction fuel with
  | zero =>
    intro s ctr out f h
    cases h
  | succ fuel ih =>
    intro s ctr out f h
    unfold finishLoop at h
    simp only [] at h
    split at h
    · -- growth failure
      injection h with h
      subst h
      refine ⟨by simp, ?_, Or.inl rfl, ?_, ?_⟩
      · intro n b hn
        simp at hn
        exact hn.1
      · intro hc
        simp at hc
      · intro _
        exact Or.inr ⟨rfl, rfl⟩
    · split at h
      · -- adapter error
        rename_i herr
        injection h with h
        subst h
        refine ⟨by simp, ?_, Or.inl herr, ?_, ?_⟩
        · intro n b hn
          simp at hn
          exact hn.1
        · intro hc
          have hc2 : (C.finish s).2.2 = Status.Ok := hc
          rw [hc2] at herr
          exact absurd herr (by simp [IsError])
        · intro _
          exact Or.inl rfl
      · split at h
        · -- end-of-stream: return Ok
          rename_i heos
          injection h with h
          subst h
          refine ⟨by simp, ?_, Or.inr rfl, ?_, ?_⟩
          · intro n b hn
            simp at hn
            exact hn.1
          · intro _
            have heos2 : (C.finish s).2.2 = Status.EndOfStream := heos
            show ([Ev.grow 128 true, Ev.adapterFinish (C.finish s).2.2] : List Ev).getLast? =
              some (Ev.adapterFinish Status.EndOfStream)
            rw [heos2]
            simp
          · intro hc
            exact absurd hc (by simp [IsError])
        · -- adapter returned Ok: loop again
          split at h
          · cases h
          · next f' hrec =>
            injection h with h
            subst h
            obtain ⟨g1, g2, g3, g4, g5⟩ := ih _ _ _ _ hrec
            have hlast :
                (Ev.grow 128 true :: Ev.adapterFinish (C.finish s).2.2 :: f'.trace).getLast? =
                  f'.trace.getLast? := by
              have he : Ev.grow 128 true :: Ev.adapterFinish (C.finish s).2.2 :: f'.trace =
                  [Ev.grow 128 true, Ev.adapterFinish (C.finish s).2.2] ++ f'.trace := rfl
              rw [he, List.getLast?_append_of_ne_nil _ g1]
            refine ⟨?_, ?_, g3, ?_, ?_⟩
            · show Ev.grow 128 true :: Ev.adapterFinish (C.finish s).2.2 :: f'.trace ≠ []
              simp
            · intro n b hn
              have hn2 : Ev.grow n b ∈
                  Ev.grow 128 true :: Ev.adapterFinish (C.finish s).2.2 :: f'.trace := hn
              simp only [List.mem_cons] at hn2
              rcases hn2 with h1 | h1 | h1
              · cases h1
                rfl
              · cases h1
              · exact g2 n b h1
            · intro hc
              have hc2 : f'.status = Status.Ok := hc
              show (Ev.grow 128 true :: Ev.adapterFinish (C.finish s).2.2 :: f'.trace).getLast? =
                some (Ev.adapterFinish Status.EndOfStream)
              rw [hlast]
              exact g4 hc2
            · intro hc
              have hc2 : IsError f'.status = true := hc
              show (Ev.grow 128 true :: Ev.adapterFinish (C.finish s).2.2 :: f'.trace).getLast? =
                  some (Ev.adapterFinish f'.status) ∨
                (f'.status = Status.MemoryError ∧
                  (Ev.grow 128 true :: Ev.adapterFinish (C.finish s).2.2 :: f'.trace).getLast? =
                    some (Ev.grow 128 false))
              rw [hlast]
              exact g5 hc2

/-- C4: `Finish` grows the output buffer in fixed 128-byte increments and
repeatedly calls the adapter's finish operation until it signals
end-of-stream, then returns `Ok`; an adapter error or a failed growth step
(`MemoryError`) is returned immediately, with no further adapter calls after
the failing event. -/
theorem c4_finish_drain (C : Codec σ) (alloc : Nat → Bool) (fuel : Nat) (s : σ)
    (ctr : Nat) (out : Blob) (f : FinishOut σ)
    (h : finishLoop C alloc fuel s ctr out = some f) :
    (∀ (n : Nat) (b : Bool), Ev.grow n b ∈ f.trace → n = 128) ∧
    (IsError f.status = true ∨ f.status = Status.Ok) ∧
    (f.status = Status.Ok →
      f.trace.getLast? = some (Ev.adapterFinish Status.EndOfStream)) ∧
    (IsError f.status = true →
      f.trace.getLast? = some (Ev.adapterFinish f.status) ∨
      (f.status = Status.MemoryError ∧ f.trace.getLast? = some (Ev.grow 128 false))) := by
  obtain ⟨_, g2, g3, g4, g5⟩ := finishLoop_spec C alloc fuel s ctr out f h
  exact ⟨g2, g3, g4, g5⟩

theorem c4_finish_drain_witness :
    (∀ (n : Nat) (b : Bool),
      Ev.grow n b ∈ [Ev.grow 128 true, Ev.adapterFinish Status.EndOfStream] → n = 128) ∧
    (IsError Status.Ok = true ∨ Status.Ok = Status.Ok) ∧
    (Status.Ok = Status.Ok →
      ([Ev.grow 128 true, Ev.adapterFinish Status.EndOfStream] : List Ev).getLast? =
        some (Ev.adapterFinish Status.EndOfStream)) ∧
    (IsError Status.Ok = true →
      ([Ev.grow 128 true, Ev.adapterFinish Status.EndOfStream] : List Ev).getLast? =
        some (Ev.adapterFinish Status.Ok) ∨
      (Status.Ok = Status.MemoryError ∧
        ([Ev.grow 128 true, Ev.adapterFinish Status.EndOfStream] : List Ev).getLast? =
          some (Ev.grow 128 false))) :=
  c4_finish_drain idCodec allocAll 1 () 0 Blob.empty
    ⟨Status.Ok, (), 1, ⟨[], 128⟩, [Ev.grow 128 true, Ev.adapterFinish Status.EndOfStream]⟩
    rfl

end ZipSpec
